import Mathlib

/-!
Verification of the custom event resolution engine of Timeline-Media-Sorter
(`#TimelineMediaSorter.js`, classes `EventsResolver` and `Utils`).

The JavaScript code is shallowly embedded below.  JavaScript `Date` values
produced by `new Date(year, month - 1, day)` followed by `setHours` are
modelled as fully normalised civil dates (`CivilDate`): the constructor's
field-overflow normalisation, and its mapping of year arguments 0..99 to
1900+year, are reproduced in `jsMakeDate`.  Timestamp comparison of two
normalised dates is lexicographic comparison of (year, month, day, end-of-day
flag), which `dateLE` implements.  `parseInt(s) || null` is modelled by
`parseField` over `jsParseInt`; JavaScript `null` becomes `Option.none`.
Code paths that throw a `TypeError` (the `_` branch of `#prepareDates` when
`yearPart` is `undefined` or `.match` returns `null`) are modelled with
`Except Unit`.
-/

/-- Day/month/year triple where any component may be absent (JS `null`).
Models the parsed date records produced by `EventsResolver.#parseDate`;
the spec calls this shape PartialDate. -/
structure PDate where
  day : Option Int
  month : Option Int
  year : Option Int
  deriving DecidableEq, Repr

/-- One user-declared event after parsing and classification, as built by
`EventsResolver.#getCustomEvents`.  `fin` models the JS field `end`. -/
structure EventSpec where
  name : String
  start : PDate
  fin : PDate
  fixedRange : Bool
  singleDay : Bool
  recurring : Bool
  crossesYear : Bool
  deriving DecidableEq, Repr

/-- A JS `Date` value normalised to civil calendar fields.  `isEnd` is false
for `setHours(0,0,0,0)` (start of day) and true for `setHours(23,59,59,999)`
(end of day). -/
structure CivilDate where
  year : Int
  month : Int
  day : Int
  isEnd : Bool
  deriving DecidableEq, Repr

/-- Result object returned by `EventsResolver.getCustomEventMatch`.
`crossedYears` holds `Option Int` because the fixed-range branch pushes the
raw (possibly null) year fields. -/
structure MatchResult where
  name : String
  year : Int
  recurring : Bool
  crossedYears : List (Option Int)
  deriving DecidableEq, Repr

/-- JS coercion of `null` to 0 in arithmetic contexts (`month - 1` with
`month === null`, and `Date` arguments). -/
def optToNum (o : Option Int) : Int := o.getD 0

/-- The `Date(year, ...)` constructor maps year arguments 0..99 to
1900+year (ECMA-262 `MakeFullYear`). -/
def quirkYear (y : Int) : Int := if 0 ≤ y ∧ y ≤ 99 then y + 1900 else y

/-- Proleptic Gregorian leap-year test, as used by the JS `Date` calendar. -/
def isLeapYear (y : Int) : Bool :=
  (decide (Int.emod y 4 = 0) && !(decide (Int.emod y 100 = 0))) || decide (Int.emod y 400 = 0)

/-- Number of days of month `m` (1-based) of year `y`; 31 for arguments
outside 1..12 (unreachable after month normalisation). -/
def daysInMonth (y m : Int) : Int :=
  if m = 4 ∨ m = 6 ∨ m = 9 ∨ m = 11 then 30
  else if m = 2 then (if isLeapYear y then 29 else 28) else 31

/-- Day count of month `m` in a non-leap year (lower bound over all years). -/
def daysInMonthNonLeap (m : Int) : Int :=
  if m = 4 ∨ m = 6 ∨ m = 9 ∨ m = 11 then 30 else if m = 2 then 28 else 31

/-- Day-overflow normalisation of the JS `Date` constructor: while the day
exceeds the month length, move to the next month.  Fuel-driven; the fuel
passed by `jsMakeDate` always suffices. -/
def rollForwardAux : Nat → Int → Int → Int → Int × Int × Int
  | 0, y, m, d => (y, m, d)
  | f + 1, y, m, d =>
    if daysInMonth y m < d then
      (if 12 ≤ m then rollForwardAux f (y + 1) 1 (d - daysInMonth y m)
       else rollForwardAux f y (m + 1) (d - daysInMonth y m))
    else (y, m, d)

/-- Day-underflow normalisation of the JS `Date` constructor: while the day
is below 1, borrow from the previous month. -/
def rollBackAux : Nat → Int → Int → Int → Int × Int × Int
  | 0, y, m, d => (y, m, d)
  | f + 1, y, m, d =>
    if d < 1 then
      (if m ≤ 1 then rollBackAux f (y - 1) 12 (d + daysInMonth (y - 1) 12)
       else rollBackAux f y (m - 1) (d + daysInMonth y (m - 1)))
    else (y, m, d)

/-- Semantics of `new Date(y, m - 1, d)`: the two-digit-year mapping, month
normalisation by floor-division, then day normalisation. -/
def jsMakeDate (y m d : Int) (isEnd : Bool) : CivilDate :=
  let y1 := quirkYear y
  let q := Int.ediv (m - 1) 12
  let y2 := y1 + q
  let m2 := (m - 1) - 12 * q + 1
  let r := if d < 1 then rollBackAux (2 - d).toNat y2 m2 d else rollForwardAux d.toNat y2 m2 d
  ⟨r.1, r.2.1, r.2.2, isEnd⟩

/-- `Utils.normalizedStart(year, month, day)`. -/
def normalizedStart (y m d : Int) : CivilDate := jsMakeDate y m d false

/-- `Utils.normalizedEnd(year, month, day)`. -/
def normalizedEnd (y m d : Int) : CivilDate := jsMakeDate y m d true

/-- Timestamp comparison `a <= b` of two normalised JS dates: lexicographic
on (year, month, day, end-of-day flag). -/
def dateLE (a b : CivilDate) : Bool :=
  decide (a.year < b.year ∨ (a.year = b.year ∧
    (a.month < b.month ∨ (a.month = b.month ∧
      (a.day < b.day ∨ (a.day = b.day ∧ (a.isEnd = false ∨ b.isEnd = true)))))))

/-- `Utils.inRange(start, value, end)`. -/
def inRange (start : Option Int) (value : Int) (stop : Option Int) : Bool :=
  match start, stop with
  | some a, some b => decide (a ≤ value) && decide (value ≤ b)
  | some a, none => decide (a ≤ value)
  | none, some b => decide (value ≤ b)
  | none, none => true

/-- `EventsResolver.#clampYear(baseYear, limitYear, preferHigher)`. -/
def clampYear (base : Int) (limit : Option Int) (preferHigher : Bool) : Int :=
  match limit with
  | none => base
  | some l => if preferHigher then max base l else min base l

/-- Whitespace characters recognised by JS `\s` (ASCII part). -/
def isWSChar (c : Char) : Bool :=
  c == ' ' || c == '\t' || c == '\n' || c == '\r' || c == Char.ofNat 11 || c == Char.ofNat 12

/-- Value of a list of decimal digit characters. -/
def decDigitsVal (l : List Char) : Int :=
  l.foldl (fun acc c => acc * 10 + ((c.toNat : Int) - 48)) 0

/-- Value of one hexadecimal digit character. -/
def hexDigitVal (c : Char) : Int :=
  if c.isDigit then (c.toNat : Int) - 48
  else if 97 ≤ c.toNat ∧ c.toNat ≤ 102 then (c.toNat : Int) - 87
  else (c.toNat : Int) - 55

/-- Hexadecimal digit test for `parseInt`'s auto-detected radix 16. -/
def isHexDigitChar (c : Char) : Bool :=
  c.isDigit || (decide (97 ≤ c.toNat) && decide (c.toNat ≤ 102))
    || (decide (65 ≤ c.toNat) && decide (c.toNat ≤ 70))

/-- JS `parseInt(s)` with no radix argument: skip leading whitespace, read an
optional sign, auto-detect a `0x` prefix, then take the longest digit run.
`none` models `NaN`. -/
def jsParseInt (s : String) : Option Int :=
  let l := s.toList.dropWhile isWSChar
  let sgn : Int := match l with | '-' :: _ => -1 | _ => 1
  let l2 := match l with | '-' :: r => r | '+' :: r => r | _ => l
  match l2 with
  | '0' :: 'x' :: r =>
    let hs := r.takeWhile isHexDigitChar
    if hs.isEmpty then none
    else some (sgn * hs.foldl (fun acc c => acc * 16 + hexDigitVal c) 0)
  | '0' :: 'X' :: r =>
    let hs := r.takeWhile isHexDigitChar
    if hs.isEmpty then none
    else some (sgn * hs.foldl (fun acc c => acc * 16 + hexDigitVal c) 0)
  | _ =>
    let ds := l2.takeWhile Char.isDigit
    if ds.isEmpty then none else some (sgn * decDigitsVal ds)

/-- Split a character list on separator characters; like JS `String.split`,
the empty input yields one empty segment. -/
def splitLC (seps : List Char) : List Char → List (List Char)
  | [] => [[]]
  | c :: rest =>
    match splitLC seps rest with
    | [] => [[]]
    | seg :: more => if seps.contains c then [] :: seg :: more else (c :: seg) :: more

/-- JS `s.split(sep, limit)` for a single-character separator: full split,
truncated to the first `limit` segments. -/
def splitLimit (s : String) (sep : Char) (limit : Nat) : List String :=
  ((splitLC [sep] s.toList).map (fun l => String.mk l)).take limit

/-- JS `name.split(/[\\/|]/)` of `getCustomEventPath`. -/
def splitSeps (s : String) : List String :=
  (splitLC ['\\', '/', '|'] s.toList).map (fun l => String.mk l)

/-- JS `s.includes(c)` for a single character. -/
def containsChar (s : String) (c : Char) : Bool := s.toList.contains c

/-- Remove the first occurrence of `c`; models JS `s.replace(c, '')`, which
replaces only the first occurrence when given a plain string. -/
def removeFirstCharAux (c : Char) : List Char → List Char
  | [] => []
  | x :: xs => if x = c then xs else x :: removeFirstCharAux c xs

/-- JS `s.replace(c, '')`. -/
def replaceFirstChar (s : String) (c : Char) : String :=
  String.mk (removeFirstCharAux c s.toList)

/-- JS `s.split(c, 2)[0]`: the prefix before the first occurrence of `c`. -/
def takeUntilChar (s : String) (c : Char) : String :=
  String.mk (s.toList.takeWhile (fun x => x != c))

/-- All matches of `/\d{4}/g`: non-overlapping four-digit runs, scanning left
to right and resuming after each match. -/
def matchFourDigitsAux : List Char → List (List Char)
  | a :: b :: c :: d :: rest =>
    if a.isDigit && b.isDigit && c.isDigit && d.isDigit then
      [a, b, c, d] :: matchFourDigitsAux rest
    else matchFourDigitsAux (b :: c :: d :: rest)
  | _ => []

/-- JS `yearPart.match(/\d{4}/g)`, with `null` (no match) modelled as `[]`. -/
def matchFourDigits (s : String) : List String :=
  (matchFourDigitsAux s.toList).map (fun l => String.mk l)

/-- Collapse each maximal whitespace run to a single space
(JS `replace(/\s+/g, ' ')`). -/
def squeezeWS : List Char → List Char
  | [] => []
  | [c] => [if isWSChar c then ' ' else c]
  | a :: b :: rest =>
    if isWSChar a && isWSChar b then squeezeWS (b :: rest)
    else (if isWSChar a then ' ' else a) :: squeezeWS (b :: rest)

/-- `clearStr` of `EventsResolver.#getPreparedEvents`:
`str.replace(/\s+/g, ' ').trim()`. -/
def clearStr (s : String) : String :=
  String.mk ((((squeezeWS s.toList).dropWhile isWSChar).reverse.dropWhile isWSChar).reverse)

/-- Result of `parseInt(tok) || null` on a destructured token (`none` input
models an `undefined` token, for which `parseInt` returns `NaN`).  A token
parsing to 0 also yields `none`, since `0 || null` is `null`. -/
def parseField (t : Option String) : Option Int :=
  match t with
  | none => none
  | some s =>
    match jsParseInt s with
    | none => none
    | some n => if n = 0 then none else some n

/-- `EventsResolver.#parseDate(rawDate)`: split on `.` (limit 3) and parse
day, month, year tokens.  A `none` argument models `undefined`, for which
the optional chain yields an empty token list. -/
def parseDate (r : Option String) : PDate :=
  match r with
  | none => ⟨none, none, none⟩
  | some s =>
    let parts := splitLimit s '.' 3
    ⟨parseField (parts.get? 0), parseField (parts.get? 1), parseField (parts.get? 2)⟩

/-- `EventsResolver.#prepareDates(rawDates)`: detect which marker is present
(`_`, `>`, `<`, `-`, or none) and split into start/end raw date strings.
`Except.error` models the two `TypeError`s of the `_` branch: `yearPart`
being `undefined` (fewer than three `.`-separated parts) and destructuring
a `null` regex match (no four-digit run in `yearPart`). -/
def prepareDates (raw : String) : Except Unit (Option String × Option String) :=
  if containsChar raw '_' then
    match splitLimit raw '.' 3 with
    | [day, month, yearPart] =>
      match matchFourDigits yearPart with
      | [] => .error ()
      | y1 :: rest =>
        let y2 := match rest with | [] => "" | y :: _ => y
        .ok (some (day ++ "." ++ month ++ "." ++ y1), some (day ++ "." ++ month ++ "." ++ y2))
    | _ => .error ()
  else if containsChar raw '>' then
    .ok (some (replaceFirstChar raw '>'), some (takeUntilChar raw '>' ++ "x"))
  else if containsChar raw '<' then
    .ok (some (takeUntilChar raw '<' ++ "x"), some (replaceFirstChar raw '<'))
  else if containsChar raw '-' then
    let parts := splitLimit raw '-' 2
    .ok (parts.get? 0, parts.get? 1)
  else .ok (some raw, some raw)

/-- `lacksYear` of `#getCustomEvents`: day and month present, year absent. -/
def lacksYear (p : PDate) : Bool := p.day.isSome && p.month.isSome && p.year.isNone

/-- `isEmptyDate` of `#getCustomEvents`: every field is null. -/
def isEmptyDate (p : PDate) : Bool := p.day.isNone && p.month.isNone && p.year.isNone

/-- `isFullDate` of `#getCustomEvents`: every field is present. -/
def isFullDate (p : PDate) : Bool := p.day.isSome && p.month.isSome && p.year.isSome

/-- `isSingleDay(start, end)` of `#getCustomEvents`.  Note `null === null`
is true in JS, so two absent years satisfy `start.year === end.year`. -/
def isSingleDayPair (s f : PDate) : Bool :=
  s.day.isSome && s.month.isSome && f.day.isSome && f.month.isSome &&
  decide (s.day = f.day) && decide (s.month = f.month) &&
  (decide (s.year = f.year) || (s.year.isSome && f.year.isNone) ||
    (s.year.isNone && f.year.isSome))

/-- `recRegex.test(rawDates)` for `/[><_]/`. -/
def hasRecMark (raw : String) : Bool :=
  containsChar raw '>' || containsChar raw '<' || containsChar raw '_'

/-- `Utils.exists(a) && Utils.exists(b) && a < b` on two nullable numbers. -/
def optLtB (a b : Option Int) : Bool :=
  match a, b with
  | some x, some y => decide (x < y)
  | _, _ => false

/-- Third `crossesYear` disjunct: months present and equal, days present
with start day after end day. -/
def sameMonthDayGtB (s f : PDate) : Bool :=
  match s.month, f.month, s.day, f.day with
  | some sm, some fm, some sd, some fd => decide (sm = fm) && decide (fd < sd)
  | _, _, _, _ => false

/-- Flag derivation of `#getCustomEvents` for one prepared event entry. -/
def classifyEvent (name raw : String) (s f : PDate) : EventSpec :=
  let sg := isSingleDayPair s f || hasRecMark raw
  let rc := hasRecMark raw || lacksYear s || lacksYear f
  { name := name, start := s, fin := f,
    fixedRange := !rc && isFullDate s && isFullDate f,
    singleDay := sg,
    recurring := rc,
    crossesYear := !sg && (optLtB s.year f.year || optLtB f.month s.month || sameMonthDayGtB s f) }

/-- One iteration of the `#getCustomEvents` map: prepare, parse, drop the
entry when both sides parse empty, otherwise classify. -/
def parseEventEntry (name raw : String) : Except Unit (Option EventSpec) :=
  match prepareDates raw with
  | .error e => .error e
  | .ok (sr, er) =>
    let s := parseDate sr
    let f := parseDate er
    if isEmptyDate s && isEmptyDate f then .ok none else .ok (some (classifyEvent name raw s f))

/-- `EventsResolver.#getPreparedEvents()` restricted to string-valued config
entries: skip empty date strings, normalise whitespace in names and dates.
(List-valued entries expand upstream into several string entries sharing a
name, so a `List (String × String)` config covers them.) -/
def getPreparedEvents (config : List (String × String)) : List (String × String) :=
  config.filterMap (fun p => if p.2 = "" then none else some (clearStr p.1, clearStr p.2))

/-- Run `parseEventEntry` over all prepared entries, propagating the first
thrown `TypeError` as JS's `Array.prototype.map` would. -/
def parseEntries : List (String × String) → Except Unit (List (Option EventSpec))
  | [] => .ok []
  | p :: rest =>
    match parseEventEntry p.1 p.2 with
    | .error e => .error e
    | .ok v =>
      match parseEntries rest with
      | .error e => .error e
      | .ok l => .ok (v :: l)

/-- `EventsResolver.#categorizeEvent(event)`: the 10 specificity tiers,
with 999 for unclassifiable flag combinations. -/
def categorizeEvent (e : EventSpec) : Int :=
  let hs := e.start.year.isSome
  let he := e.fin.year.isSome
  if !e.recurring && e.fixedRange && e.singleDay then 1
  else if !e.recurring && e.fixedRange && !e.singleDay then 2
  else if e.recurring && e.singleDay && hs && he then 3
  else if e.recurring && e.singleDay && !hs && he then 4
  else if e.recurring && e.singleDay && hs && !he then 5
  else if e.recurring && !e.singleDay && hs && he then 6
  else if e.recurring && !e.singleDay && !hs && he then 7
  else if e.recurring && !e.singleDay && hs && !he then 8
  else if e.recurring && e.singleDay && !hs && !he then 9
  else if e.recurring && !e.singleDay && !hs && !he then 10
  else 999

/-- Stable insertion of one event into a tier-sorted list. -/
def insertEvent (x : EventSpec) : List EventSpec → List EventSpec
  | [] => [x]
  | y :: ys =>
    if categorizeEvent x ≤ categorizeEvent y then x :: y :: ys else y :: insertEvent x ys

/-- `EventsResolver.#sortEvents(events)`: ECMA-262 requires
`Array.prototype.sort` to be stable, and the comparator
`categorizeEvent(a) - categorizeEvent(b)` is consistent, so the result is
the unique stable sort by tier, here computed by insertion sort. -/
def sortEvents : List EventSpec → List EventSpec
  | [] => []
  | x :: xs => insertEvent x (sortEvents xs)

/-- Drop the entries the `#getCustomEvents` map turned into `undefined`
(`filter(Boolean)`) and sort those that remain. -/
def tableOfPrepared (l : List (String × String)) : Except Unit (List EventSpec) :=
  match parseEntries l with
  | .error e => .error e
  | .ok v => .ok (sortEvents (v.filterMap id))

/-- `EventsResolver.#getCustomEvents()`: map config entries through
preparation, parsing and classification, drop empty entries, and sort. -/
def buildEventTable (config : List (String × String)) : Except Unit (List EventSpec) :=
  tableOfPrepared (getPreparedEvents config)

/-- Body of the `getCustomEventMatch` loop for one event. -/
def matchEvent (e : EventSpec) (date : CivilDate) : Option MatchResult :=
  if e.fixedRange then
    let sd := normalizedStart (optToNum e.start.year) (optToNum e.start.month) (optToNum e.start.day)
    let ed := normalizedEnd (optToNum e.fin.year) (optToNum e.fin.month) (optToNum e.fin.day)
    if dateLE sd date && dateLE date ed then
      some { name := e.name, year := date.year, recurring := e.recurring,
             crossedYears := if e.crossesYear then [e.start.year, e.fin.year] else [] }
    else none
  else if e.recurring then
    if e.singleDay then
      if decide (e.start.day = some date.day) && decide (e.start.month = some date.month) then
        if inRange e.start.year date.year e.fin.year then
          some { name := e.name, year := date.year, recurring := e.recurring, crossedYears := [] }
        else none
      else none
    else
      if inRange e.start.year date.year e.fin.year then
        if e.crossesYear then
          let prevStart := normalizedStart (clampYear (date.year - 1) e.start.year true)
            (optToNum e.start.month) (optToNum e.start.day)
          let prevEnd := normalizedEnd (clampYear date.year e.fin.year false)
            (optToNum e.fin.month) (optToNum e.fin.day)
          let currStart := normalizedStart (clampYear date.year e.start.year true)
            (optToNum e.start.month) (optToNum e.start.day)
          let currEnd := normalizedEnd (clampYear (date.year + 1) e.fin.year false)
            (optToNum e.fin.month) (optToNum e.fin.day)
          let hitPrev := dateLE prevStart date && dateLE date prevEnd
          let hitCurr := dateLE currStart date && dateLE date currEnd
          if hitPrev || hitCurr then
            some { name := e.name, year := date.year, recurring := e.recurring,
                   crossedYears :=
                     (if hitPrev then [some prevStart.year, some prevEnd.year] else []) ++
                     (if hitCurr then [some currStart.year, some currEnd.year] else []) }
          else none
        else
          let ws := normalizedStart date.year (optToNum e.start.month) (optToNum e.start.day)
          let we := normalizedEnd date.year (optToNum e.fin.month) (optToNum e.fin.day)
          if dateLE ws date && dateLE date we then
            some { name := e.name, year := date.year, recurring := e.recurring, crossedYears := [] }
          else none
      else none
  else none

/-- The scan of `getCustomEventMatch`: first matching event of the sorted
table wins. -/
def findEventMatch (events : List EventSpec) (date : CivilDate) : Option MatchResult :=
  events.findSome? (fun e => matchEvent e date)

/-- `EventsResolver.getCustomEventMatch(date)`: build the table from the
configuration and scan it.  `Except.error` models a `TypeError` escaping
from table construction. -/
def getCustomEventMatch (config : List (String × String)) (date : CivilDate) :
    Except Unit (Option MatchResult) :=
  match buildEventTable config with
  | .error e => .error e
  | .ok evs => .ok (findEventMatch evs date)

/-- JS number-to-string conversion for the integers appearing in labels. -/
def intStr (n : Int) : String := toString n

/-- Element `i` of `crossedYears` rendered as JS string interpolation would:
`undefined` for a missing index, `null` for a null entry. -/
def crossedYearStr (l : List (Option Int)) (i : Nat) : String :=
  match l.get? i with
  | none => "undefined"
  | some none => "null"
  | some (some v) => intStr v

/-- `getYears()` inside `getCustomEventPath`. -/
def getYearsLabel (m : MatchResult) : String :=
  match m.crossedYears with
  | [] => intStr m.year
  | _ => crossedYearStr m.crossedYears 0 ++ "-" ++ crossedYearStr m.crossedYears 1

/-- The indexed map of `getCustomEventPath`: append the year label to the
segment at index `len - 1` when the event is not recurring. -/
def updateNames (rc : Bool) (label : String) (len : Nat) : Nat → List String → List String
  | _, [] => []
  | i, a :: rest =>
    (if rc = false ∧ i = len - 1 then a ++ " " ++ label else a) ::
      updateNames rc label len (i + 1) rest

/-- `EventsResolver.getCustomEventPath(customEvent)`. -/
def getCustomEventPath (m : MatchResult) : List String :=
  let folderNames := splitSeps m.name
  let label := getYearsLabel m
  let updated := updateNames m.recurring label folderNames.length 0 folderNames
  if m.recurring then
    updated ++ [(updated.get? (updated.length - 1)).getD "undefined" ++ " " ++ label]
  else updated

/-- Last segment of a split name, with the JS rendering of an out-of-bounds
index for the (unreachable) empty case. -/
def lastSegD : List String → String
  | [] => "undefined"
  | [a] => a
  | _ :: b :: r => lastSegD (b :: r)

/-- Modelled from the spec (§4.5 Label Formatter) for the refinement half of
the path-formatting claim: split the name into segments; a non-recurring
event's last segment gets the year label appended, a recurring event keeps
its segments and gains one trailing year-stamped segment. -/
def formatPathSpec (m : MatchResult) : List String :=
  let segs := splitSeps m.name
  let label := getYearsLabel m
  if m.recurring then segs ++ [lastSegD segs ++ " " ++ label]
  else segs.dropLast ++ [lastSegD segs ++ " " ++ label]

/-- Day/month pairs in calendar order: `(m1, d1)` not after `(m2, d2)`. -/
def pairLE (m1 d1 m2 d2 : Int) : Prop := m1 < m2 ∨ (m1 = m2 ∧ d1 ≤ d2)

instance (m1 d1 m2 d2 : Int) : Decidable (pairLE m1 d1 m2 d2) := by
  unfold pairLE
  infer_instance

/-- A raw date string that does not hit the `TypeError` paths of
`#prepareDates`: if it contains `_`, it must split on `.` into three parts
whose third part contains a four-digit run. -/
def safeRawB (raw : String) : Bool :=
  !(containsChar raw '_') ||
    ((splitLimit raw '.' 3).length == 3 &&
      !((matchFourDigits ((splitLimit raw '.' 3).getD 2 "")).isEmpty))

/-! Helper lemmas about the embedded primitives. -/

theorem ediv_eq_div (a b : Int) : Int.ediv a b = a / b := rfl

theorem daysInMonth_ge (y m : Int) : 28 ≤ daysInMonth y m := by
  unfold daysInMonth
  split_ifs <;> omega

theorem daysInMonthNonLeap_le (y m : Int) : daysInMonthNonLeap m ≤ daysInMonth y m := by
  unfold daysInMonth daysInMonthNonLeap
  split_ifs <;> omega

theorem daysInMonthNonLeap_ge (m : Int) : 28 ≤ daysInMonthNonLeap m := by
  unfold daysInMonthNonLeap
  split_ifs <;> omega

theorem quirkYear_eq_of_ge (y : Int) (h : 100 ≤ y) : quirkYear y = y := by
  unfold quirkYear
  rw [if_neg (by omega)]

theorem rollForwardAux_eq_of_le (f : Nat) (y m d : Int) (h : d ≤ daysInMonth y m) :
    rollForwardAux f y m d = (y, m, d) := by
  cases f with
  | zero => rfl
  | succ n =>
    unfold rollForwardAux
    rw [if_neg (by omega)]

theorem jsMakeDate_eq_of_valid (y m d : Int) (fl : Bool) (hy : 100 ≤ y)
    (hm1 : 1 ≤ m) (hm2 : m ≤ 12) (hd1 : 1 ≤ d) (hd2 : d ≤ daysInMonth y m) :
    jsMakeDate y m d fl = ⟨y, m, d, fl⟩ := by
  have hq : Int.ediv (m - 1) 12 = 0 := by rw [ediv_eq_div]; omega
  simp only [jsMakeDate, hq, quirkYear_eq_of_ge y hy]
  have h1 : m - 1 - 12 * 0 + 1 = m := by ring
  have h2 : y + 0 = y := by ring
  rw [h1, h2, if_neg (by omega : ¬d < 1), rollForwardAux_eq_of_le _ y m d hd2]

theorem dateLE_true_iff (a b : CivilDate) :
    dateLE a b = true ↔
      (a.year < b.year ∨ (a.year = b.year ∧
        (a.month < b.month ∨ (a.month = b.month ∧
          (a.day < b.day ∨ (a.day = b.day ∧ (a.isEnd = false ∨ b.isEnd = true))))))) := by
  unfold dateLE
  exact decide_eq_true_iff

theorem inRange_true_iff (s : Option Int) (v : Int) (t : Option Int) :
    inRange s v t = true ↔
      ((∀ a, s = some a → a ≤ v) ∧ (∀ b, t = some b → v ≤ b)) := by
  cases s <;> cases t <;> simp [inRange]

/-! Lemmas about the stable tier sort. -/

theorem mem_insertEvent (x z : EventSpec) (l : List EventSpec) :
    z ∈ insertEvent x l ↔ z = x ∨ z ∈ l := by
  induction l with
  | nil => simp [insertEvent]
  | cons y ys ih =>
    unfold insertEvent
    split_ifs with h
    · simp [List.mem_cons]
    · simp only [List.mem_cons, ih]
      tauto

theorem pairwise_insertEvent (x : EventSpec) (l : List EventSpec)
    (h : List.Pairwise (fun a b => categorizeEvent a ≤ categorizeEvent b) l) :
    List.Pairwise (fun a b => categorizeEvent a ≤ categorizeEvent b) (insertEvent x l) := by
  induction l with
  | nil => simp [insertEvent]
  | cons y ys ih =>
    rcases List.pairwise_cons.mp h with ⟨hy, hys⟩
    unfold insertEvent
    split_ifs with hc
    · refine List.pairwise_cons.mpr ⟨?_, h⟩
      intro z hz
      rcases List.mem_cons.mp hz with h1 | h2
      · rw [h1]; exact hc
      · exact le_trans hc (hy z h2)
    · refine List.pairwise_cons.mpr ⟨?_, ih hys⟩
      intro z hz
      rcases (mem_insertEvent x z ys).mp hz with h1 | h2
      · rw [h1]; omega
      · exact hy z h2

theorem sortEvents_pairwise (l : List EventSpec) :
    List.Pairwise (fun a b => categorizeEvent a ≤ categorizeEvent b) (sortEvents l) := by
  induction l with
  | nil => simp [sortEvents]
  | cons x xs ih => exact pairwise_insertEvent x (sortEvents xs) ih

theorem filter_insertEvent (x : EventSpec) (l : List EventSpec) (t : Int) :
    (insertEvent x l).filter (fun e => categorizeEvent e == t) =
      (if categorizeEvent x = t
        then x :: l.filter (fun e => categorizeEvent e == t)
        else l.filter (fun e => categorizeEvent e == t)) := by
  induction l with
  | nil =>
    unfold insertEvent
    simp only [List.filter_cons, List.filter_nil, beq_iff_eq]
  | cons y ys ih =>
    unfold insertEvent
    by_cases hcc : categorizeEvent x ≤ categorizeEvent y
    · rw [if_pos hcc]
      simp only [List.filter_cons, beq_iff_eq]
    · rw [if_neg hcc]
      simp only [List.filter_cons, beq_iff_eq, ih]
      by_cases hx : categorizeEvent x = t
      · have hy : ¬(categorizeEvent y = t) := by omega
        simp [hx, hy]
      · simp [hx]

theorem sortEvents_filter_stable (l : List EventSpec) (t : Int) :
    (sortEvents l).filter (fun e => categorizeEvent e == t) =
      l.filter (fun e => categorizeEvent e == t) := by
  induction l with
  | nil => rfl
  | cons x xs ih =>
    show (insertEvent x (sortEvents xs)).filter _ = _
    rw [filter_insertEvent]
    simp only [List.filter_cons, beq_iff_eq]
    by_cases hx : categorizeEvent x = t
    · rw [if_pos hx, if_pos hx, ih]
    · rw [if_neg hx, if_neg hx, ih]

/-! Lemmas about classification. -/

theorem parseEventEntry_ok_some (n raw : String) (e : EventSpec)
    (h : parseEventEntry n raw = .ok (some e)) :
    ∃ sr er, prepareDates raw = .ok (sr, er) ∧
      e = classifyEvent n raw (parseDate sr) (parseDate er) := by
  unfold parseEventEntry at h
  cases hp : prepareDates raw with
  | error u => rw [hp] at h; exact absurd h (by simp)
  | ok p =>
    obtain ⟨sr, er⟩ := p
    rw [hp] at h
    dsimp only at h
    refine ⟨sr, er, rfl, ?_⟩
    by_cases he : (isEmptyDate (parseDate sr) && isEmptyDate (parseDate er)) = true
    · rw [if_pos he] at h
      exact absurd h (by simp)
    · rw [if_neg he] at h
      have := Except.ok.inj h
      exact (Option.some.inj this).symm

theorem classify_not_both_flags (n raw : String) (s f : PDate) :
    ((classifyEvent n raw s f).singleDay && (classifyEvent n raw s f).crossesYear) = false ∧
      ((classifyEvent n raw s f).fixedRange && (classifyEvent n raw s f).recurring) = false := by
  unfold classifyEvent
  simp only
  constructor
  · cases hsg : (isSingleDayPair s f || hasRecMark raw) <;> simp [hsg]
  · cases hrc : (hasRecMark raw || lacksYear s || lacksYear f) <;> simp [hrc]

theorem classify_rec_or_fixed (n raw : String) (s f : PDate)
    (hd1 : s.day.isSome = true) (hm1 : s.month.isSome = true)
    (hd2 : f.day.isSome = true) (hm2 : f.month.isSome = true) :
    ((classifyEvent n raw s f).recurring || (classifyEvent n raw s f).fixedRange) = true := by
  unfold classifyEvent
  simp only
  cases hrc : (hasRecMark raw || lacksYear s || lacksYear f)
  · have h1 : lacksYear s = false := by
      cases h' : lacksYear s
      · rfl
      · rw [h'] at hrc; simp at hrc
    have h2 : lacksYear f = false := by
      cases h' : lacksYear f
      · rfl
      · rw [h'] at hrc; simp at hrc
    have hy1 : s.year.isSome = true := by
      unfold lacksYear at h1
      rw [hd1, hm1] at h1
      simp at h1
      simp [Option.isSome_iff_ne_none, h1]
    have hy2 : f.year.isSome = true := by
      unfold lacksYear at h2
      rw [hd2, hm2] at h2
      simp at h2
      simp [Option.isSome_iff_ne_none, h2]
    simp [isFullDate, hd1, hm1, hd2, hm2, hy1, hy2]
  · simp

theorem categorize_bounds (e : EventSpec)
    (h : e.recurring = true ∨ (e.recurring = false ∧ e.fixedRange = true)) :
    1 ≤ categorizeEvent e ∧ categorizeEvent e ≤ 10 := by
  rcases h with hr | ⟨hr, hf⟩
  · cases hsg : e.singleDay <;> cases hhs : e.start.year.isSome <;>
      cases hhe : e.fin.year.isSome <;>
      simp [categorizeEvent, hr, hsg, hhs, hhe]
  · cases hsg : e.singleDay <;> simp [categorizeEvent, hr, hf, hsg]

/-! Lemmas about the path formatter. -/

theorem updateNames_of_rec (label : String) (len : Nat) (i : Nat) (l : List String) :
    updateNames true label len i l = l := by
  induction l generalizing i with
  | nil => rfl
  | cons a r ih => simp [updateNames, ih]

theorem updateNames_of_nonrec (label : String) (len : Nat) (l : List String) :
    ∀ i : Nat, l ≠ [] → i + l.length = len →
      updateNames false label len i l = l.dropLast ++ [lastSegD l ++ " " ++ label] := by
  induction l with
  | nil => intro i h _; exact absurd rfl h
  | cons a r ih =>
    intro i _ hlen
    cases r with
    | nil =>
      have hi : i = len - 1 := by simp at hlen; omega
      simp [updateNames, hi, lastSegD]
    | cons b r2 =>
      have hil : i + r2.length + 2 = len := by
        simp only [List.length_cons] at hlen
        omega
      have hlen2 : (i + 1) + (b :: r2).length = len := by
        simp only [List.length_cons]
        omega
      have hstep : updateNames false label len i (a :: b :: r2) =
          (if false = false ∧ i = len - 1 then a ++ " " ++ label else a) ::
            updateNames false label len (i + 1) (b :: r2) := rfl
      rw [hstep, ih (i + 1) (by simp) hlen2]
      have hc2 : ¬(false = false ∧ i = len - 1) := fun hcn => absurd hcn.2 (by omega)
      rw [if_neg hc2]
      simp [lastSegD, List.dropLast]

theorem splitLC_ne_nil (seps : List Char) (l : List Char) : splitLC seps l ≠ [] := by
  cases l with
  | nil => simp [splitLC]
  | cons c rest =>
    unfold splitLC
    cases h : splitLC seps rest with
    | nil => simp
    | cons s m => split_ifs <;> simp

theorem splitSeps_ne_nil (s : String) : splitSeps s ≠ [] := by
  unfold splitSeps
  simp [List.map_eq_nil_iff, splitLC_ne_nil]

theorem getD_last_eq_lastSegD (l : List String) (h : l ≠ []) :
    (l.get? (l.length - 1)).getD "undefined" = lastSegD l := by
  induction l with
  | nil => exact absurd rfl h
  | cons a r ih =>
    cases r with
    | nil => rfl
    | cons b r2 =>
      have := ih (by simp)
      simp only [List.length_cons] at this ⊢
      simpa [lastSegD, List.get?] using this

theorem getCustomEventPath_eq_spec (m : MatchResult) :
    getCustomEventPath m = formatPathSpec m := by
  unfold getCustomEventPath formatPathSpec
  cases hr : m.recurring
  · simp only [hr, Bool.false_eq_true, if_false]
    exact updateNames_of_nonrec _ _ _ 0 (splitSeps_ne_nil _) (by simp)
  · simp only [hr, if_true]
    rw [updateNames_of_rec]
    rw [getD_last_eq_lastSegD _ (splitSeps_ne_nil _)]

theorem isSome_ite_some {α : Type} (b : Bool) (x : α) :
    (if b = true then some x else none).isSome = b := by
  cases b <;> simp

theorem dateLE_true_of (a b : CivilDate)
    (h : a.year < b.year ∨ (a.year = b.year ∧
      (a.month < b.month ∨ (a.month = b.month ∧
        (a.day < b.day ∨ (a.day = b.day ∧ (a.isEnd = false ∨ b.isEnd = true))))))) :
    dateLE a b = true := (dateLE_true_iff a b).mpr h

theorem matchEvent_recurring_eval (e : EventSpec) (sd sm ed em y m d : Int)
    (hfix : e.fixedRange = false) (hrec : e.recurring = true)
    (hs : e.start = ⟨some sd, some sm, none⟩) (hf : e.fin = ⟨some ed, some em, none⟩)
    (hsm1 : 1 ≤ sm) (hsm2 : sm ≤ 12) (hsd1 : 1 ≤ sd) (hsd2 : sd ≤ daysInMonthNonLeap sm)
    (hem1 : 1 ≤ em) (hem2 : em ≤ 12) (hed1 : 1 ≤ ed) (hed2 : ed ≤ daysInMonthNonLeap em)
    (hy : 101 ≤ y) :
    (matchEvent e ⟨y, m, d, false⟩).isSome =
      (if e.singleDay = true then decide (sd = d ∧ sm = m)
       else if e.crossesYear = true then
         (decide (pairLE m d em ed) || decide (pairLE sm sd m d))
       else (decide (pairLE sm sd m d) && decide (pairLE m d em ed))) := by
  have hS : normalizedStart y sm sd = ⟨y, sm, sd, false⟩ :=
    jsMakeDate_eq_of_valid y sm sd false (by omega) hsm1 hsm2 hsd1
      (le_trans hsd2 (daysInMonthNonLeap_le y sm))
  have hSp : normalizedStart (y - 1) sm sd = ⟨y - 1, sm, sd, false⟩ :=
    jsMakeDate_eq_of_valid (y - 1) sm sd false (by omega) hsm1 hsm2 hsd1
      (le_trans hsd2 (daysInMonthNonLeap_le (y - 1) sm))
  have hE : normalizedEnd y em ed = ⟨y, em, ed, true⟩ :=
    jsMakeDate_eq_of_valid y em ed true (by omega) hem1 hem2 hed1
      (le_trans hed2 (daysInMonthNonLeap_le y em))
  have hEn : normalizedEnd (y + 1) em ed = ⟨y + 1, em, ed, true⟩ :=
    jsMakeDate_eq_of_valid (y + 1) em ed true (by omega) hem1 hem2 hed1
      (le_trans hed2 (daysInMonthNonLeap_le (y + 1) em))
  have hL1 : dateLE ⟨y, sm, sd, false⟩ ⟨y, m, d, false⟩ = decide (pairLE sm sd m d) := by
    unfold dateLE
    rw [decide_eq_decide]
    unfold pairLE
    simp
    omega
  have hL2 : dateLE ⟨y, m, d, false⟩ ⟨y, em, ed, true⟩ = decide (pairLE m d em ed) := by
    unfold dateLE
    rw [decide_eq_decide]
    unfold pairLE
    simp
    omega
  have hL3 : dateLE ⟨y - 1, sm, sd, false⟩ ⟨y, m, d, false⟩ = true := by
    apply dateLE_true_of
    simp
  have hL4 : dateLE ⟨y, m, d, false⟩ ⟨y + 1, em, ed, true⟩ = true := by
    apply dateLE_true_of
    simp
  unfold matchEvent
  rw [hfix, hrec]
  simp only [Bool.false_eq_true, if_false, if_true]
  cases hsg : e.singleDay
  · simp only [Bool.false_eq_true, if_false]
    rw [hs, hf]
    dsimp only
    rw [show inRange none y none = true from rfl]
    simp only [if_true, optToNum, Option.getD_some]
    cases hcr : e.crossesYear
    · simp only [Bool.false_eq_true, if_false]
      simp only [hS, hE, hL1, hL2]
      rw [isSome_ite_some]
    · simp only [if_true]
      dsimp only [clampYear]
      simp only [hSp, hE, hS, hEn, hL3, hL4, hL1, hL2]
      simp only [Bool.true_and, Bool.and_true]
      rw [isSome_ite_some]
  · simp only [if_true]
    rw [hs, hf]
    dsimp only
    rw [show inRange none y none = true from rfl]
    simp only [if_true]
    have h1 : decide ((some sd : Option Int) = some d) = decide (sd = d) := by
      rw [decide_eq_decide]
      exact Option.some_inj
    have h2 : decide ((some sm : Option Int) = some m) = decide (sm = m) := by
      rw [decide_eq_decide]
      exact Option.some_inj
    rw [h1, h2, ← Bool.decide_and, isSome_ite_some]

theorem daysInMonth_twelve (z : Int) : daysInMonth z 12 = 31 := by
  norm_num [daysInMonth]

theorem daysInMonth_one (z : Int) : daysInMonth z 1 = 31 := by
  norm_num [daysInMonth]

theorem dateLE_false_of (a b : CivilDate)
    (h : ¬(a.year < b.year ∨ (a.year = b.year ∧
      (a.month < b.month ∨ (a.month = b.month ∧
        (a.day < b.day ∨ (a.day = b.day ∧ (a.isEnd = false ∨ b.isEnd = true)))))))) :
    dateLE a b = false := by
  unfold dateLE
  exact decide_eq_false h

def newYearSpec : EventSpec :=
  ⟨"New Year", ⟨some 31, some 12, none⟩, ⟨some 1, some 1, none⟩, false, false, true, true⟩

theorem matchEvent_newYear_dec31 (y : Int) (hy : 101 ≤ y) :
    matchEvent newYearSpec ⟨y, 12, 31, false⟩ =
      some ⟨"New Year", y, true, [some y, some (y + 1)]⟩ := by
  have hPs : normalizedStart (y - 1) 12 31 = ⟨y - 1, 12, 31, false⟩ :=
    jsMakeDate_eq_of_valid _ _ _ _ (by omega) (by omega) (by omega) (by omega)
      (by rw [daysInMonth_twelve])
  have hPe : normalizedEnd y 1 1 = ⟨y, 1, 1, true⟩ :=
    jsMakeDate_eq_of_valid _ _ _ _ (by omega) (by omega) (by omega) (by omega)
      (by rw [daysInMonth_one]; omega)
  have hCs : normalizedStart y 12 31 = ⟨y, 12, 31, false⟩ :=
    jsMakeDate_eq_of_valid _ _ _ _ (by omega) (by omega) (by omega) (by omega)
      (by rw [daysInMonth_twelve])
  have hCe : normalizedEnd (y + 1) 1 1 = ⟨y + 1, 1, 1, true⟩ :=
    jsMakeDate_eq_of_valid _ _ _ _ (by omega) (by omega) (by omega) (by omega)
      (by rw [daysInMonth_one]; omega)
  have hA : dateLE ⟨y - 1, 12, 31, false⟩ ⟨y, 12, 31, false⟩ = true := by
    apply dateLE_true_of
    simp
  have hB : dateLE ⟨y, 12, 31, false⟩ ⟨y, 1, 1, true⟩ = false := by
    apply dateLE_false_of
    simp
  have hC : dateLE ⟨y, 12, 31, false⟩ ⟨y, 12, 31, false⟩ = true := by
    apply dateLE_true_of
    simp
  have hD : dateLE ⟨y, 12, 31, false⟩ ⟨y + 1, 1, 1, true⟩ = true := by
    apply dateLE_true_of
    simp
  unfold matchEvent newYearSpec
  dsimp only
  simp only [Bool.false_eq_true, if_false, if_true]
  rw [show inRange none y none = true from rfl]
  simp only [if_true, optToNum, Option.getD_some]
  dsimp only [clampYear]
  simp only [hPs, hPe, hCs, hCe, hA, hB, hC, hD]
  simp

theorem matchEvent_newYear_jan1 (y : Int) (hy : 101 ≤ y) :
    matchEvent newYearSpec ⟨y, 1, 1, false⟩ =
      some ⟨"New Year", y, true, [some (y - 1), some y]⟩ := by
  have hPs : normalizedStart (y - 1) 12 31 = ⟨y - 1, 12, 31, false⟩ :=
    jsMakeDate_eq_of_valid _ _ _ _ (by omega) (by omega) (by omega) (by omega)
      (by rw [daysInMonth_twelve])
  have hPe : normalizedEnd y 1 1 = ⟨y, 1, 1, true⟩ :=
    jsMakeDate_eq_of_valid _ _ _ _ (by omega) (by omega) (by omega) (by omega)
      (by rw [daysInMonth_one]; omega)
  have hCs : normalizedStart y 12 31 = ⟨y, 12, 31, false⟩ :=
    jsMakeDate_eq_of_valid _ _ _ _ (by omega) (by omega) (by omega) (by omega)
      (by rw [daysInMonth_twelve])
  have hCe : normalizedEnd (y + 1) 1 1 = ⟨y + 1, 1, 1, true⟩ :=
    jsMakeDate_eq_of_valid _ _ _ _ (by omega) (by omega) (by omega) (by omega)
      (by rw [daysInMonth_one]; omega)
  have hA : dateLE ⟨y - 1, 12, 31, false⟩ ⟨y, 1, 1, false⟩ = true := by
    apply dateLE_true_of
    simp
  have hB : dateLE ⟨y, 1, 1, false⟩ ⟨y, 1, 1, true⟩ = true := by
    apply dateLE_true_of
    simp
  have hC : dateLE ⟨y, 12, 31, false⟩ ⟨y, 1, 1, false⟩ = false := by
    apply dateLE_false_of
    simp
  unfold matchEvent newYearSpec
  dsimp only
  simp only [Bool.false_eq_true, if_false, if_true]
  rw [show inRange none y none = true from rfl]
  simp only [if_true, optToNum, Option.getD_some]
  dsimp only [clampYear]
  simp only [hPs, hPe, hCs, hCe, hA, hB, hC]
  simp

/-! Lemmas for the error-handling claims. -/

theorem prepareDates_ok_of_safe (raw : String) (h : safeRawB raw = true) :
    ∃ p, prepareDates raw = .ok p := by
  unfold prepareDates
  by_cases hu : containsChar raw '_' = true
  · unfold safeRawB at h
    rw [hu] at h
    simp only [Bool.not_true, Bool.false_or, Bool.and_eq_true, beq_iff_eq,
      Bool.not_eq_true'] at h
    obtain ⟨h1, h2⟩ := h
    rw [if_pos hu]
    cases hsp : splitLimit raw '.' 3 with
    | nil => rw [hsp] at h1; simp at h1
    | cons a t =>
      cases t with
      | nil => rw [hsp] at h1; simp at h1
      | cons b t2 =>
        cases t2 with
        | nil => rw [hsp] at h1; simp at h1
        | cons c t3 =>
          cases t3 with
          | cons x t4 => rw [hsp] at h1; simp at h1
          | nil =>
            rw [hsp] at h2
            have hc2 : (matchFourDigits c).isEmpty = false := by simpa using h2
            dsimp only
            cases hm : matchFourDigits c with
            | nil => rw [hm] at hc2; simp at hc2
            | cons y1 rest => exact ⟨_, rfl⟩
  · rw [if_neg hu]
    split_ifs <;> exact ⟨_, rfl⟩

theorem parseEventEntry_ok_of_safe (n raw : String) (h : safeRawB raw = true) :
    ∃ v, parseEventEntry n raw = .ok v := by
  obtain ⟨p, hp⟩ := prepareDates_ok_of_safe raw h
  obtain ⟨sr, er⟩ := p
  unfold parseEventEntry
  rw [hp]
  dsimp only
  split_ifs <;> exact ⟨_, rfl⟩

theorem parseEntries_ok_of_safe (l : List (String × String))
    (h : ∀ p ∈ l, safeRawB p.2 = true) : ∃ v, parseEntries l = .ok v := by
  induction l with
  | nil => exact ⟨[], rfl⟩
  | cons p rest ih =>
    obtain ⟨v, hv⟩ := parseEventEntry_ok_of_safe p.1 p.2 (h p (by simp))
    obtain ⟨vs, hvs⟩ := ih (fun q hq => h q (by simp [hq]))
    refine ⟨v :: vs, ?_⟩
    unfold parseEntries
    rw [hv, hvs]

theorem getPreparedEvents_append (c1 c2 : List (String × String)) :
    getPreparedEvents (c1 ++ c2) = getPreparedEvents c1 ++ getPreparedEvents c2 := by
  simp [getPreparedEvents, List.filterMap_append]

theorem parseEntries_filterMap_mid_none (l1 l2 : List (String × String))
    (q : String × String) (h : parseEventEntry q.1 q.2 = .ok none) :
    (parseEntries (l1 ++ q :: l2)).map (fun l => l.filterMap id) =
      (parseEntries (l1 ++ l2)).map (fun l => l.filterMap id) := by
  induction l1 with
  | nil =>
    simp only [List.nil_append]
    have hstep : parseEntries (q :: l2) =
        (match parseEventEntry q.1 q.2 with
         | .error e => .error e
         | .ok v =>
           match parseEntries l2 with
           | .error e => .error e
           | .ok l => .ok (v :: l)) := rfl
    rw [hstep, h]
    cases hrest : parseEntries l2 with
    | error e => rfl
    | ok l => simp [Except.map]
  | cons p l1' ih =>
    simp only [List.cons_append]
    have hstep2 : ∀ (tail : List (String × String)), parseEntries (p :: tail) =
        (match parseEventEntry p.1 p.2 with
         | .error e => .error e
         | .ok v =>
           match parseEntries tail with
           | .error e => .error e
           | .ok l => .ok (v :: l)) := fun tail => rfl
    rw [hstep2, hstep2]
    cases hpe : parseEventEntry p.1 p.2 with
    | error e => rfl
    | ok v =>
      dsimp only
      cases h1 : parseEntries (l1' ++ q :: l2) with
      | error e =>
        cases h2 : parseEntries (l1' ++ l2) with
        | error e2 => rfl
        | ok lb => rw [h1, h2] at ih; simp [Except.map] at ih
      | ok la =>
        cases h2 : parseEntries (l1' ++ l2) with
        | error e2 => rw [h1, h2] at ih; simp [Except.map] at ih
        | ok lb =>
          rw [h1, h2] at ih
          simp only [Except.map] at ih ⊢
          have ihl : List.filterMap id la = List.filterMap id lb := Except.ok.inj ih
          cases v with
          | none => simp [List.filterMap_cons, ihl]
          | some a => simp [List.filterMap_cons, ihl]

theorem tableOfPrepared_congr (la lb : List (String × String))
    (h : (parseEntries la).map (fun l => l.filterMap id) =
      (parseEntries lb).map (fun l => l.filterMap id)) :
    tableOfPrepared la = tableOfPrepared lb := by
  unfold tableOfPrepared
  cases h1 : parseEntries la with
  | error e =>
    cases h2 : parseEntries lb with
    | error e2 => rfl
    | ok l => rw [h1, h2] at h; simp [Except.map] at h
  | ok l =>
    cases h2 : parseEntries lb with
    | error e2 => rw [h1, h2] at h; simp [Except.map] at h
    | ok l2 =>
      rw [h1, h2] at h
      simp only [Except.map] at h
      have hll : List.filterMap id l = List.filterMap id l2 := Except.ok.inj h
      dsimp only
      rw [hll]

theorem buildEventTable_drop (c1 c2 : List (String × String)) (n raw : String)
    (h : parseEventEntry (clearStr n) (clearStr raw) = .ok none) :
    buildEventTable (c1 ++ (n, raw) :: c2) = buildEventTable (c1 ++ c2) := by
  unfold buildEventTable
  by_cases hra : raw = ""
  · have hg : getPreparedEvents (c1 ++ (n, raw) :: c2) = getPreparedEvents (c1 ++ c2) := by
      rw [getPreparedEvents_append, getPreparedEvents_append]
      congr 1
      simp [getPreparedEvents, List.filterMap_cons, hra]
    rw [hg]
  · have hmid : getPreparedEvents ((n, raw) :: c2) =
        (clearStr n, clearStr raw) :: getPreparedEvents c2 := by
      simp [getPreparedEvents, List.filterMap_cons, hra]
    apply tableOfPrepared_congr
    rw [getPreparedEvents_append, getPreparedEvents_append, hmid]
    exact parseEntries_filterMap_mid_none _ _ _ h

/-! The claims. -/

/-- C1: in a table holding a fixedRange event and an overlapping recurring
event, a date inside both intervals resolves to the fixedRange event: fixed
events categorize into tiers 1-2, recurring ones into tiers 3-10, the stable
sort puts the fixed event first whichever declaration order is used, and the
matcher returns the first match.  (`e1.recurring = false` holds for every
table-built fixedRange event, see the flag-invariant claim.) -/
theorem c1_fixed_beats_recurring (e1 e2 : EventSpec) (d : CivilDate) (r : MatchResult)
    (h1 : e1.fixedRange = true) (h2 : e1.recurring = false) (h3 : e2.recurring = true)
    (hm1 : matchEvent e1 d = some r) (hm2 : (matchEvent e2 d).isSome = true) :
    categorizeEvent e1 ≤ 2 ∧ 3 ≤ categorizeEvent e2 ∧
      findEventMatch (sortEvents [e1, e2]) d = some r ∧
      findEventMatch (sortEvents [e2, e1]) d = some r := by
  have hc1 : categorizeEvent e1 ≤ 2 := by
    cases hsg : e1.singleDay <;> simp [categorizeEvent, h1, h2, hsg]
  have hc2 : 3 ≤ categorizeEvent e2 := by
    cases hsg : e2.singleDay <;> cases hhs : e2.start.year.isSome <;>
      cases hhe : e2.fin.year.isSome <;> simp [categorizeEvent, h3, hsg, hhs, hhe]
  have hsort1 : sortEvents [e1, e2] = [e1, e2] := by
    rw [show sortEvents [e1, e2] = insertEvent e1 [e2] from rfl]
    unfold insertEvent
    rw [if_pos (by omega)]
  have hsort2 : sortEvents [e2, e1] = [e1, e2] := by
    rw [show sortEvents [e2, e1] = insertEvent e2 [e1] from rfl]
    unfold insertEvent
    rw [if_neg (by omega)]
    rfl
  refine ⟨hc1, hc2, ?_, ?_⟩
  · rw [hsort1]
    simp [findEventMatch, List.findSome?_cons, hm1]
  · rw [hsort2]
    simp [findEventMatch, List.findSome?_cons, hm1]

/-- C1 witness: a fixed one-day event beats an unbounded recurring event on
the same calendar day, in a concrete two-event table. -/
theorem c1_fixed_beats_recurring_witness :
    findEventMatch (sortEvents
      [⟨"F", ⟨some 5, some 2, some 2000⟩, ⟨some 5, some 2, some 2000⟩, true, true, false, false⟩,
       ⟨"R", ⟨some 5, some 2, none⟩, ⟨some 5, some 2, none⟩, false, true, true, false⟩])
      ⟨2000, 2, 5, false⟩ = some ⟨"F", 2000, false, []⟩ :=
  (c1_fixed_beats_recurring _ _ _ _ rfl rfl rfl (by rfl) (by rfl)).2.2.1

/-- C2 counterexample: the claim promises a match for every year; at year
100 the date 100-01-01 does not match the '31.12.x-01.01.x' event, because
the JS Date constructor maps the previous-window year argument 99 to 1999,
producing the empty window [1999-12-31, 100-01-01]. -/
theorem c2_crossing_counterexample :
    getCustomEventMatch [("New Year", "31.12.x-01.01.x")] ⟨100, 1, 1, false⟩ =
      .ok none := rfl

/-- C2 (amended to years 101..9999, the range reachable from four-digit
filename years and clear of the constructor's two-digit-year mapping): both
YYYY-12-31 and YYYY-01-01 match the '31.12.x-01.01.x' event; the Dec-31
instance matches through the current-start/next-end window with crossed
pair (YYYY, YYYY+1), and the Jan-1 instance through the
previous-start/this-end window with pair (YYYY-1, YYYY). -/
theorem c2_crossing_new_year (y : Int) (h1 : 101 ≤ y) (h2 : y ≤ 9999) :
    getCustomEventMatch [("New Year", "31.12.x-01.01.x")] ⟨y, 12, 31, false⟩ =
      .ok (some ⟨"New Year", y, true, [some y, some (y + 1)]⟩) ∧
    getCustomEventMatch [("New Year", "31.12.x-01.01.x")] ⟨y, 1, 1, false⟩ =
      .ok (some ⟨"New Year", y, true, [some (y - 1), some y]⟩) := by
  have htbl : buildEventTable [("New Year", "31.12.x-01.01.x")] = .ok [newYearSpec] := rfl
  unfold getCustomEventMatch
  rw [htbl]
  constructor
  · simp [findEventMatch, List.findSome?, matchEvent_newYear_dec31 y h1]
  · simp [findEventMatch, List.findSome?, matchEvent_newYear_jan1 y h1]

/-- C2 witness: the amended statement at the concrete year 2024. -/
theorem c2_crossing_new_year_witness :
    getCustomEventMatch [("New Year", "31.12.x-01.01.x")] ⟨2024, 12, 31, false⟩ =
      .ok (some ⟨"New Year", 2024, true, [some 2024, some 2025]⟩) ∧
    getCustomEventMatch [("New Year", "31.12.x-01.01.x")] ⟨2024, 1, 1, false⟩ =
      .ok (some ⟨"New Year", 2024, true, [some 2023, some 2024]⟩) := by
  have h := c2_crossing_new_year 2024 (by norm_num) (by norm_num)
  norm_num at h
  exact h

/-- C3 counterexample: a config entry whose raw date string contains the
`_` marker but lacks the day.month.years shape makes `getCustomEventMatch`
throw a TypeError (modelled as `Except.error`), contradicting the claim
that it never raises for malformed raw strings. -/
theorem c3_error_counterexample :
    getCustomEventMatch [("E", "1_2")] ⟨2024, 1, 1, false⟩ = .error () := rfl

/-- C3 (amended): `getCustomEventMatch` terminates normally with a
MatchResult-or-none for every configured event list whose prepared raw date
strings avoid the `_` TypeError paths (a `_`-marked string must split on `.`
into three parts whose third part contains a four-digit run); strings that
are malformed in any other way never raise. -/
theorem c3_no_error_amended (config : List (String × String)) (d : CivilDate)
    (h : ∀ p ∈ getPreparedEvents config, safeRawB p.2 = true) :
    ∃ res : Option MatchResult, getCustomEventMatch config d = .ok res := by
  obtain ⟨v, hv⟩ := parseEntries_ok_of_safe _ h
  refine ⟨findEventMatch (sortEvents (v.filterMap id)) d, ?_⟩
  unfold getCustomEventMatch buildEventTable tableOfPrepared
  rw [hv]

/-- C3 witness: the amended statement on a small concrete configuration
including a markerless malformed string. -/
theorem c3_no_error_amended_witness :
    ∃ res : Option MatchResult,
      getCustomEventMatch [("A", "05.02.2000"), ("B", "garbage")] ⟨2000, 2, 5, false⟩ =
        .ok res :=
  c3_no_error_amended [("A", "05.02.2000"), ("B", "garbage")] ⟨2000, 2, 5, false⟩ (by decide)

/-- C4 counterexample: the malformed raw string '05.06.abcd' (the grammar
requires a four-digit year or 'x') is NOT dropped: it is kept in the table
as an unbounded recurring June-5 event, and a lookup returns it. -/
theorem c4_malformed_counterexample :
    buildEventTable [("E", "05.06.abcd")] =
      .ok [⟨"E", ⟨some 5, some 6, none⟩, ⟨some 5, some 6, none⟩, false, true, true, false⟩] ∧
    getCustomEventMatch [("E", "05.06.abcd")] ⟨2020, 6, 5, false⟩ =
      .ok (some ⟨"E", 2020, true, []⟩) := ⟨rfl, rfl⟩

/-- C4 (amended): an event entry is dropped from the table exactly when both
prepared sides of its raw date string parse to the all-null date (in
particular for strings without any leading numeric token, and for the empty
string); such an entry leaves the built table, and hence every lookup,
unchanged, so no lookup ever returns an event originating from it. -/
theorem c4_empty_dropped (c1 c2 : List (String × String)) (n raw : String) (d : CivilDate)
    (h : parseEventEntry (clearStr n) (clearStr raw) = .ok none) :
    buildEventTable (c1 ++ (n, raw) :: c2) = buildEventTable (c1 ++ c2) ∧
    getCustomEventMatch (c1 ++ (n, raw) :: c2) d = getCustomEventMatch (c1 ++ c2) d ∧
    (∀ sr er, prepareDates (clearStr raw) = .ok (sr, er) →
      (parseEventEntry (clearStr n) (clearStr raw) = .ok none ↔
        (isEmptyDate (parseDate sr) && isEmptyDate (parseDate er)) = true)) := by
  have hb := buildEventTable_drop c1 c2 n raw h
  refine ⟨hb, ?_, ?_⟩
  · unfold getCustomEventMatch
    rw [hb]
  · intro sr er hpre
    unfold parseEventEntry
    rw [hpre]
    dsimp only
    by_cases hcase : (isEmptyDate (parseDate sr) && isEmptyDate (parseDate er)) = true
    · rw [if_pos hcase]
      simp [hcase]
    · rw [if_neg hcase]
      simp [hcase]

/-- C4 witness: dropping the empty-parsing entry ("E", "zzz") from a
concrete table leaves table and lookups unchanged. -/
theorem c4_empty_dropped_witness :
    buildEventTable ([("A", "05.02.2000")] ++ ("E", "zzz") :: [("B", "11.11.x")]) =
      buildEventTable ([("A", "05.02.2000")] ++ [("B", "11.11.x")]) ∧
    getCustomEventMatch ([("A", "05.02.2000")] ++ ("E", "zzz") :: [("B", "11.11.x")])
        ⟨2000, 2, 5, false⟩ =
      getCustomEventMatch ([("A", "05.02.2000")] ++ [("B", "11.11.x")]) ⟨2000, 2, 5, false⟩ :=
  ⟨(c4_empty_dropped [("A", "05.02.2000")] [("B", "11.11.x")] "E" "zzz"
      ⟨2000, 2, 5, false⟩ (by rfl)).1,
   (c4_empty_dropped [("A", "05.02.2000")] [("B", "11.11.x")] "E" "zzz"
      ⟨2000, 2, 5, false⟩ (by rfl)).2.1⟩

/-- C5: `getCustomEventPath` splits the event name on the separators and
stamps the year label as the spec's Label Formatter describes (refinement
against `formatPathSpec`), and the two end-to-end scenarios hold: the
recurring New-Year match yields ['New Year', 'New Year 2024-2025'] and the
fixed Trip|Italy match yields ['Trip', 'Italy 2019']. -/
theorem c5_event_path (m : MatchResult) :
    getCustomEventPath m = formatPathSpec m ∧
    getCustomEventMatch [("New Year", "31.12.x-01.01.x")] ⟨2024, 12, 31, false⟩ =
      .ok (some ⟨"New Year", 2024, true, [some 2024, some 2025]⟩) ∧
    getCustomEventPath ⟨"New Year", 2024, true, [some 2024, some 2025]⟩ =
      ["New Year", "New Year 2024-2025"] ∧
    getCustomEventMatch [("Trip|Italy", "12.08.2019")] ⟨2019, 8, 12, false⟩ =
      .ok (some ⟨"Trip|Italy", 2019, false, []⟩) ∧
    getCustomEventPath ⟨"Trip|Italy", 2019, false, []⟩ = ["Trip", "Italy 2019"] :=
  ⟨getCustomEventPath_eq_spec m, rfl, rfl, rfl, rfl⟩

/-- C6: a recurring single-day event matches a date exactly when day and
month equal the start's day and month and the date's year lies within the
(possibly one-sided) year bounds; in particular '15.03.>2015' rejects
2010-03-15 and accepts 2020-03-15.  (`e.fixedRange = false` holds for every
table-built recurring event, see the flag-invariant claim.) -/
theorem c6_recurring_single_day (e : EventSpec) (d : CivilDate)
    (hfix : e.fixedRange = false) (hrec : e.recurring = true) (hsg : e.singleDay = true) :
    ((matchEvent e d).isSome = true ↔
      (e.start.day = some d.day ∧ e.start.month = some d.month ∧
        (∀ sy, e.start.year = some sy → sy ≤ d.year) ∧
        (∀ ey, e.fin.year = some ey → d.year ≤ ey))) ∧
    getCustomEventMatch [("Company Day", "15.03.>2015")] ⟨2010, 3, 15, false⟩ = .ok none ∧
    getCustomEventMatch [("Company Day", "15.03.>2015")] ⟨2020, 3, 15, false⟩ =
      .ok (some ⟨"Company Day", 2020, true, []⟩) := by
  refine ⟨?_, rfl, rfl⟩
  unfold matchEvent
  rw [hfix, hrec, hsg]
  simp only [Bool.false_eq_true, if_false, if_true]
  by_cases hc : (decide (e.start.day = some d.day) && decide (e.start.month = some d.month)) = true
  · rw [if_pos hc]
    simp only [Bool.and_eq_true, decide_eq_true_eq] at hc
    rw [isSome_ite_some, inRange_true_iff]
    constructor
    · intro hir
      exact ⟨hc.1, hc.2, hir.1, hir.2⟩
    · intro hr
      exact ⟨hr.2.2.1, hr.2.2.2⟩
  · rw [if_neg hc]
    simp only [Option.isSome_none, Bool.false_eq_true, false_iff]
    intro hcontra
    apply hc
    simp [hcontra.1, hcontra.2.1]

/-- C6 witness: the equivalence applied to the parsed '15.03.>2015' event
and the date 2020-03-15. -/
theorem c6_recurring_single_day_witness :
    (matchEvent ⟨"Company Day", ⟨some 15, some 3, some 2015⟩, ⟨some 15, some 3, none⟩,
        false, true, true, false⟩ ⟨2020, 3, 15, false⟩).isSome = true :=
  ((c6_recurring_single_day ⟨"Company Day", ⟨some 15, some 3, some 2015⟩,
      ⟨some 15, some 3, none⟩, false, true, true, false⟩ ⟨2020, 3, 15, false⟩
      rfl rfl rfl).1).mpr
    ⟨rfl, rfl, fun sy hsy => by simp at hsy; show sy ≤ 2020; omega,
     fun ey hey => by simp at hey⟩

/-- C7: the event table is sorted ascending by the 10 specificity tiers of
`categorizeEvent`, the sort is stable (events of equal tier keep their
declaration order, stated as filter-invariance per tier), and every valid
table-built EventSpec (day and month present on both sides, as every
grammar-conforming raw string produces) falls into exactly one tier between
1 and 10. -/
theorem c7_priority_tiers (l : List EventSpec) (t : Int) (n raw : String) (e : EventSpec) :
    List.Pairwise (fun a b => categorizeEvent a ≤ categorizeEvent b) (sortEvents l) ∧
    (sortEvents l).filter (fun x => categorizeEvent x == t) =
      l.filter (fun x => categorizeEvent x == t) ∧
    (parseEventEntry n raw = .ok (some e) →
      e.start.day.isSome = true → e.start.month.isSome = true →
      e.fin.day.isSome = true → e.fin.month.isSome = true →
      1 ≤ categorizeEvent e ∧ categorizeEvent e ≤ 10) := by
  refine ⟨sortEvents_pairwise l, sortEvents_filter_stable l t, ?_⟩
  intro h hd1 hm1 hd2 hm2
  obtain ⟨sr, er, hp, he⟩ := parseEventEntry_ok_some n raw e h
  subst he
  apply categorize_bounds
  have hro := classify_rec_or_fixed n raw (parseDate sr) (parseDate er) hd1 hm1 hd2 hm2
  have hnb := (classify_not_both_flags n raw (parseDate sr) (parseDate er)).2
  cases hr : (classifyEvent n raw (parseDate sr) (parseDate er)).recurring
  · right
    refine ⟨rfl, ?_⟩
    rw [hr] at hro
    simpa using hro
  · left
    rfl

/-- C7 witness: sortedness, stability and the tier bounds on a concrete
two-event list and the parsed '15.03.>2015' event (tier 5). -/
theorem c7_priority_tiers_witness :
    List.Pairwise (fun a b => categorizeEvent a ≤ categorizeEvent b) (sortEvents
      [⟨"R", ⟨some 5, some 2, none⟩, ⟨some 5, some 2, none⟩, false, true, true, false⟩,
       ⟨"F", ⟨some 5, some 2, some 2000⟩, ⟨some 5, some 2, some 2000⟩, true, true, false, false⟩]) ∧
    (sortEvents
      [⟨"R", ⟨some 5, some 2, none⟩, ⟨some 5, some 2, none⟩, false, true, true, false⟩,
       ⟨"F", ⟨some 5, some 2, some 2000⟩, ⟨some 5, some 2, some 2000⟩, true, true, false, false⟩]).filter
        (fun x => categorizeEvent x == 1) =
      [⟨"R", ⟨some 5, some 2, none⟩, ⟨some 5, some 2, none⟩, false, true, true, false⟩,
       ⟨"F", ⟨some 5, some 2, some 2000⟩, ⟨some 5, some 2, some 2000⟩, true, true, false, false⟩].filter
        (fun x => categorizeEvent x == 1) ∧
    (1 ≤ categorizeEvent ⟨"Company Day", ⟨some 15, some 3, some 2015⟩, ⟨some 15, some 3, none⟩,
        false, true, true, false⟩ ∧
      categorizeEvent ⟨"Company Day", ⟨some 15, some 3, some 2015⟩, ⟨some 15, some 3, none⟩,
        false, true, true, false⟩ ≤ 10) := by
  have h := c7_priority_tiers
    [⟨"R", ⟨some 5, some 2, none⟩, ⟨some 5, some 2, none⟩, false, true, true, false⟩,
     ⟨"F", ⟨some 5, some 2, some 2000⟩, ⟨some 5, some 2, some 2000⟩, true, true, false, false⟩]
    1 "Company Day" "15.03.>2015"
    ⟨"Company Day", ⟨some 15, some 3, some 2015⟩, ⟨some 15, some 3, none⟩, false, true, true, false⟩
  exact ⟨h.1, h.2.1, h.2.2 (by rfl) rfl rfl rfl rfl⟩

/-- C8: for every EventSpec built into the table, `singleDay` and
`crossesYear` are never both true, `fixedRange` and `recurring` are never
both true, and for valid raw strings (those whose two sides parse with day
and month present) exactly one of `fixedRange`/`recurring` is true. -/
theorem c8_flag_invariants (n raw : String) (e : EventSpec)
    (h : parseEventEntry n raw = .ok (some e)) :
    (e.singleDay && e.crossesYear) = false ∧
    (e.fixedRange && e.recurring) = false ∧
    (e.start.day.isSome = true → e.start.month.isSome = true →
      e.fin.day.isSome = true → e.fin.month.isSome = true →
      e.fixedRange = !e.recurring) := by
  obtain ⟨sr, er, hp, he⟩ := parseEventEntry_ok_some n raw e h
  subst he
  refine ⟨(classify_not_both_flags n raw (parseDate sr) (parseDate er)).1,
    (classify_not_both_flags n raw (parseDate sr) (parseDate er)).2, ?_⟩
  intro hd1 hm1 hd2 hm2
  have hro := classify_rec_or_fixed n raw (parseDate sr) (parseDate er) hd1 hm1 hd2 hm2
  have hnb := (classify_not_both_flags n raw (parseDate sr) (parseDate er)).2
  cases hr : (classifyEvent n raw (parseDate sr) (parseDate er)).recurring
  · rw [hr] at hro
    simp only [Bool.false_or] at hro
    rw [hro]
    rfl
  · rw [hr] at hnb
    simp only [Bool.and_true] at hnb
    rw [hnb]
    rfl

/-- C8 witness: the invariants on the event parsed from '31.12.x-01.01.x'. -/
theorem c8_flag_invariants_witness :
    ((newYearSpec.singleDay && newYearSpec.crossesYear) = false ∧
      (newYearSpec.fixedRange && newYearSpec.recurring) = false ∧
      newYearSpec.fixedRange = !newYearSpec.recurring) := by
  have h := c8_flag_invariants "New Year" "31.12.x-01.01.x" newYearSpec (by rfl)
  exact ⟨h.1, h.2.1, h.2.2 rfl rfl rfl rfl⟩

/-- C9: for a recurring event with no year bound on either side (the
'DD.MM.x-DD.MM.x' declarations) and valid calendar day/month fields, the
match outcome for a given calendar day/month is independent of the queried
year across the whole range 101..9999 reachable from four-digit filename
years (so in particular the same in 1800, 2024 and 3000), and every
day/month inside the declared range does match: between the bounds for a
non-crossing range, on either side of the year boundary for a crossing
range, and on the exact day for a single-day event. -/
theorem c9_year_independence (e : EventSpec) (sd sm ed em y1 y2 m d : Int)
    (hfix : e.fixedRange = false) (hrec : e.recurring = true)
    (hs : e.start = ⟨some sd, some sm, none⟩) (hf : e.fin = ⟨some ed, some em, none⟩)
    (hsm1 : 1 ≤ sm) (hsm2 : sm ≤ 12) (hsd1 : 1 ≤ sd) (hsd2 : sd ≤ daysInMonthNonLeap sm)
    (hem1 : 1 ≤ em) (hem2 : em ≤ 12) (hed1 : 1 ≤ ed) (hed2 : ed ≤ daysInMonthNonLeap em)
    (hqm1 : 1 ≤ m) (hqm2 : m ≤ 12) (hqd1 : 1 ≤ d) (hqd2 : d ≤ daysInMonthNonLeap m)
    (hy1 : 101 ≤ y1) (hy1b : y1 ≤ 9999) (hy2 : 101 ≤ y2) (hy2b : y2 ≤ 9999) :
    (matchEvent e ⟨y1, m, d, false⟩).isSome = (matchEvent e ⟨y2, m, d, false⟩).isSome ∧
    (e.singleDay = false → e.crossesYear = false →
      pairLE sm sd m d → pairLE m d em ed →
      (matchEvent e ⟨y1, m, d, false⟩).isSome = true) ∧
    (e.singleDay = false → e.crossesYear = true →
      (pairLE sm sd m d ∨ pairLE m d em ed) →
      (matchEvent e ⟨y1, m, d, false⟩).isSome = true) ∧
    (e.singleDay = true → sd = d → sm = m →
      (matchEvent e ⟨y1, m, d, false⟩).isSome = true) := by
  have k1 := matchEvent_recurring_eval e sd sm ed em y1 m d hfix hrec hs hf
    hsm1 hsm2 hsd1 hsd2 hem1 hem2 hed1 hed2 hy1
  have k2 := matchEvent_recurring_eval e sd sm ed em y2 m d hfix hrec hs hf
    hsm1 hsm2 hsd1 hsd2 hem1 hem2 hed1 hed2 hy2
  refine ⟨?_, ?_, ?_, ?_⟩
  · rw [k1, k2]
  · intro hsg hcr hp1 hp2
    rw [k1, hsg, hcr]
    simp [hp1, hp2]
  · intro hsg hcr hor
    rw [k1, hsg, hcr]
    rcases hor with hA | hB
    · simp [hA]
    · simp [hB]
  · intro hsg h1 h2
    rw [k1, hsg]
    simp [h1, h2]

/-- C9 witness: the event '15.11.x-20.11.x' matches November 17 in 1800,
2024 and 3000 alike. -/
theorem c9_year_independence_witness :
    ((matchEvent ⟨"G", ⟨some 15, some 11, none⟩, ⟨some 20, some 11, none⟩,
        false, false, true, false⟩ ⟨1800, 11, 17, false⟩).isSome =
      (matchEvent ⟨"G", ⟨some 15, some 11, none⟩, ⟨some 20, some 11, none⟩,
        false, false, true, false⟩ ⟨2024, 11, 17, false⟩).isSome) ∧
    ((matchEvent ⟨"G", ⟨some 15, some 11, none⟩, ⟨some 20, some 11, none⟩,
        false, false, true, false⟩ ⟨2024, 11, 17, false⟩).isSome =
      (matchEvent ⟨"G", ⟨some 15, some 11, none⟩, ⟨some 20, some 11, none⟩,
        false, false, true, false⟩ ⟨3000, 11, 17, false⟩).isSome) ∧
    (matchEvent ⟨"G", ⟨some 15, some 11, none⟩, ⟨some 20, some 11, none⟩,
        false, false, true, false⟩ ⟨1800, 11, 17, false⟩).isSome = true := by
  refine ⟨(c9_year_independence _ 15 11 20 11 1800 2024 11 17 rfl rfl rfl rfl
      (by norm_num) (by norm_num) (by norm_num) (by norm_num [daysInMonthNonLeap])
      (by norm_num) (by norm_num) (by norm_num) (by norm_num [daysInMonthNonLeap])
      (by norm_num) (by norm_num) (by norm_num) (by norm_num [daysInMonthNonLeap])
      (by norm_num) (by norm_num) (by norm_num) (by norm_num)).1,
    (c9_year_independence _ 15 11 20 11 2024 3000 11 17 rfl rfl rfl rfl
      (by norm_num) (by norm_num) (by norm_num) (by norm_num [daysInMonthNonLeap])
      (by norm_num) (by norm_num) (by norm_num) (by norm_num [daysInMonthNonLeap])
      (by norm_num) (by norm_num) (by norm_num) (by norm_num [daysInMonthNonLeap])
      (by norm_num) (by norm_num) (by norm_num) (by norm_num)).1,
    (c9_year_independence _ 15 11 20 11 1800 2024 11 17 rfl rfl rfl rfl
      (by norm_num) (by norm_num) (by norm_num) (by norm_num [daysInMonthNonLeap])
      (by norm_num) (by norm_num) (by norm_num) (by norm_num [daysInMonthNonLeap])
      (by norm_num) (by norm_num) (by norm_num) (by norm_num [daysInMonthNonLeap])
      (by norm_num) (by norm_num) (by norm_num) (by norm_num)).2.1 rfl rfl
      (by unfold pairLE; omega) (by unfold pairLE; omega)⟩

/-- C10: a raw token that `parseInt` reads as 0 (such as '0000' or '00')
becomes null in the parsed date because of the `|| null` fallback, and
consequently the event declared '05.06.0000' is classified recurring with
no year bound, not fixed. -/
theorem c10_zero_token_null (tok : String) :
    (jsParseInt tok = some 0 → parseField (some tok) = none) ∧
    buildEventTable [("E", "05.06.0000")] =
      .ok [⟨"E", ⟨some 5, some 6, none⟩, ⟨some 5, some 6, none⟩, false, true, true, false⟩] := by
  constructor
  · intro h
    unfold parseField
    dsimp only
    rw [h]
    simp
  · rfl

/-- C10 witness: the token '0000' parses to integer 0 and the parsed field
is null. -/
theorem c10_zero_token_null_witness : parseField (some "0000") = none :=
  (c10_zero_token_null "0000").1 rfl
